import Mathlib

/-!
Verification of the bounded crawl-and-fetch engine of the
darkweb-file-downloader repository.

The repository contains two near-duplicate implementations of the engine:
`src/darkweb_file_downloader.py` (modelled below in namespace `V1`) and
`src/darkweb-file-downloader.py` (namespace `V2`).  Python strings are
modelled as `List Char`; the fragments of `urllib.parse`
(`urlsplit`, `urlparse`, `urljoin`, `urldefrag`, `unquote`) that the engine
calls are modelled faithfully after CPython's `Lib/urllib/parse.py` in
namespace `PyUrl`.  Network effects are modelled as explicit oracles:
a page fetch becomes a function from the directory URL to the ordered list
of raw `href` attribute values found on the page (`none` when the fetch
raises), and a streaming response body becomes a list of chunk events.
-/

namespace DWFD

/-- Python `str` modelled as a list of characters. -/
abbrev Str := List Char

/-- `s.lower()` (ASCII as used by the engine). -/
def pyToLower (s : Str) : Str := s.map Char.toLower

/-- `s.strip()`: remove leading and trailing whitespace. -/
def pyStrip (s : Str) : Str :=
  ((s.dropWhile Char.isWhitespace).reverse.dropWhile Char.isWhitespace).reverse

/-- `s.lstrip(c)` for a single strip character. -/
def lstripChar (c : Char) (s : Str) : Str := s.dropWhile (· == c)

/-- `s.rstrip(c)` for a single strip character. -/
def rstripChar (c : Char) (s : Str) : Str :=
  (s.reverse.dropWhile (· == c)).reverse

/-- `s.strip(c)` for a single strip character. -/
def stripChar (c : Char) (s : Str) : Str := lstripChar c (rstripChar c s)

/-- `s.startswith(p)`. -/
def pyStartsWith (s p : Str) : Bool := p.isPrefixOf s

/-- `s.endswith(p)`. -/
def pyEndsWith (s p : Str) : Bool := p.isSuffixOf s

/-- `s.split(c)` on a one-character separator, Python semantics:
`"".split("/") = [""]`, empty pieces kept. -/
def splitOnChar (c : Char) : Str → List Str
  | [] => [[]]
  | x :: xs =>
    match splitOnChar c xs with
    | [] => if x == c then [[], []] else [[x]]
    | y :: ys => if x == c then [] :: y :: ys else (x :: y) :: ys

/-- `c.join(pieces)` for a one-character separator. -/
def joinWithChar (c : Char) : List Str → Str
  | [] => []
  | [x] => x
  | x :: y :: ys => x ++ c :: joinWithChar c (y :: ys)

/-- `s.split(c, 1)` viewed as a pair: piece before the first occurrence of
`c` and piece after it; when `c` is absent the pair is `(s, [])`. -/
def splitFirstChar (c : Char) : Str → Str × Str
  | [] => ([], [])
  | x :: xs =>
    if x == c then ([], xs)
    else
      let r := splitFirstChar c xs
      (x :: r.1, r.2)

/-- `s.split(c, n)`: split on `c` at most `n` times. -/
def splitCharAtMost (c : Char) : Nat → Str → List Str
  | 0, s => [s]
  | n + 1, s =>
    if s.contains c then
      let r := splitFirstChar c s
      r.1 :: splitCharAtMost c n r.2
    else [s]

/-- First occurrence of the substring `sep` inside `s`, returned as the
pieces before and after it (`sep` removed); `none` when absent. -/
def splitOnceSub (sep : Str) : Str → Option (Str × Str)
  | [] => if sep = [] then some ([], []) else none
  | x :: xs =>
    if sep.isPrefixOf (x :: xs) then some ([], (x :: xs).drop sep.length)
    else
      match splitOnceSub sep xs with
      | some (a, b) => some (x :: a, b)
      | none => none

/-- Python `sub in s` (substring containment). -/
def containsSub (s sub : Str) : Bool := (splitOnceSub sub s).isSome

/-- `int(s)` for a digit string. -/
def natOfDigits (s : Str) : Nat :=
  s.foldl (fun a c => a * 10 + (c.toNat - 48)) 0

/-- Order-preserving de-duplication with a `seen` accumulator; models the
`seen`-set loop that both `parse_links_from_listing` and `parse_links` use. -/
def dedupAux (seen : List Str) : List Str → List Str
  | [] => []
  | x :: xs =>
    if x ∈ seen then dedupAux seen xs
    else x :: dedupAux (x :: seen) xs

/-- De-duplicate keeping first occurrences, in order. -/
def dedupKeepOrder (l : List Str) : List Str := dedupAux [] l

namespace PyUrl

/-- Result of `urllib.parse.urlsplit`. -/
structure SplitResult where
  scheme : Str
  netloc : Str
  path : Str
  query : Str
  frag : Str
deriving DecidableEq, Repr

/-- Result of `urllib.parse.urlparse`. -/
structure ParseResult where
  scheme : Str
  netloc : Str
  path : Str
  params : Str
  query : Str
  frag : Str
deriving DecidableEq, Repr

/-- CPython `scheme_chars`: ASCII letters, digits and `+-.`. -/
def isSchemeChar (c : Char) : Bool :=
  c.isAlpha || c.isDigit || c == '+' || c == '-' || c == '.'

/-- CPython `uses_relative`. -/
def usesRelative : List Str :=
  ["", "ftp", "http", "gopher", "nntp", "imap", "wais", "file", "https",
   "shttp", "mms", "prospero", "rtsp", "rtspu", "sftp", "svn", "svn+ssh",
   "ws", "wss"].map String.toList

/-- CPython `uses_netloc` (the schemes relevant to this engine). -/
def usesNetloc : List Str :=
  ["", "ftp", "http", "gopher", "nntp", "telnet", "imap", "wais", "file",
   "mms", "https", "shttp", "snews", "prospero", "rtsp", "rtspu", "rsync",
   "svn", "svn+ssh", "sftp", "nfs", "git", "git+ssh", "ws", "wss"].map
    String.toList

/-- CPython `uses_params`. -/
def usesParams : List Str :=
  ["", "ftp", "hdl", "prospero", "http", "imap", "https", "shttp", "rtsp",
   "rtspu", "sip", "sips", "mms", "sftp", "tel"].map String.toList

/-- Scheme detection step of `urlsplit`: split off `scheme:` when the text
before the first `:` is a well-formed scheme, else keep the default. -/
def detectScheme (defscheme url : Str) : Str × Str :=
  match url.findIdx? (· == ':') with
  | some i =>
    if 0 < i && (url.headD ' ').isAlpha && (url.take i).all isSchemeChar then
      (pyToLower (url.take i), url.drop (i + 1))
    else (defscheme, url)
  | none => (defscheme, url)

/-- CPython `_splitnetloc`: the netloc runs until the first `/`, `?` or `#`. -/
def splitNetloc (s : Str) : Str × Str :=
  (s.takeWhile (fun c => !(c == '/' || c == '?' || c == '#')),
   s.dropWhile (fun c => !(c == '/' || c == '?' || c == '#')))

/-- CPython `urlsplit(url, scheme, allow_fragments)` (tab/CR/LF removal,
scheme detection, `//netloc`, `#fragment`, `?query`). -/
def urlsplit (url0 defscheme : Str) (allowFragments : Bool) : SplitResult :=
  let url1 := url0.filter (fun c => !(c == '\t' || c == '\r' || c == '\n'))
  let (scheme, rest1) := detectScheme defscheme url1
  let (netloc, rest2) :=
    if pyStartsWith rest1 "//".toList then splitNetloc (rest1.drop 2)
    else ([], rest1)
  let (rest3, frag) :=
    if allowFragments && rest2.contains '#' then splitFirstChar '#' rest2
    else (rest2, [])
  let (path, query) :=
    if rest3.contains '?' then splitFirstChar '?' rest3 else (rest3, [])
  ⟨scheme, netloc, path, query, frag⟩

/-- Index of the last occurrence of `c` in `s` (CPython `s.rfind(c)`),
`none` when absent. -/
def lastIdxOf (c : Char) (s : Str) : Option Nat :=
  match (s.reverse).findIdx? (· == c) with
  | some i => some (s.length - 1 - i)
  | none => none

/-- Index of the first occurrence of `c` in `s` at position `≥ start`
(CPython `s.find(c, start)`), `none` when absent. -/
def findIdxFrom (c : Char) (start : Nat) (s : Str) : Option Nat :=
  match (s.drop start).findIdx? (· == c) with
  | some i => some (start + i)
  | none => none

/-- CPython `_splitparams`. -/
def splitparams (url : Str) : Str × Str :=
  if url.contains '/' then
    match lastIdxOf '/' url with
    | some r =>
      match findIdxFrom ';' r url with
      | some i => (url.take i, url.drop (i + 1))
      | none => (url, [])
    | none => (url, [])
  else
    match url.findIdx? (· == ';') with
    | some i => (url.take i, url.drop (i + 1))
    | none => (url, [])

/-- CPython `urlparse(url, scheme, allow_fragments)`. -/
def urlparse (url defscheme : Str) (allowFragments : Bool) : ParseResult :=
  let s := urlsplit url defscheme allowFragments
  if s.scheme ∈ usesParams && s.path.contains ';' then
    let (p, params) := splitparams s.path
    ⟨s.scheme, s.netloc, p, params, s.query, s.frag⟩
  else ⟨s.scheme, s.netloc, s.path, [], s.query, s.frag⟩

/-- CPython `urlunsplit`. -/
def urlunsplit (scheme netloc path query frag : Str) : Str :=
  let url1 :=
    if netloc ≠ [] ∨ (path ≠ [] ∧ pyStartsWith path "//".toList) then
      let u := if path ≠ [] ∧ ¬ pyStartsWith path "/".toList
               then '/' :: path else path
      "//".toList ++ netloc ++ u
    else path
  let url2 := if scheme ≠ [] then scheme ++ ':' :: url1 else url1
  let url3 := if query ≠ [] then url2 ++ '?' :: query else url2
  if frag ≠ [] then url3 ++ '#' :: frag else url3

/-- CPython `urlunparse`. -/
def urlunparse (r : ParseResult) : Str :=
  let p := if r.params ≠ [] then r.path ++ ';' :: r.params else r.path
  urlunsplit r.scheme r.netloc p r.query r.frag

/-- Dot-segment resolution loop of CPython `urljoin`
(`'..'` pops, `'.'` is dropped, anything else is appended). -/
def resolveSegs (acc : List Str) : List Str → List Str
  | [] => acc
  | seg :: rest =>
    if seg = "..".toList then resolveSegs acc.dropLast rest
    else if seg = ".".toList then resolveSegs acc rest
    else resolveSegs (acc ++ [seg]) rest

/-- `segments[1:-1] = filter(None, segments[1:-1])` of CPython `urljoin`:
drop empty segments, keeping the first and last elements. -/
def filterMiddle : List Str → List Str
  | [] => []
  | [x] => [x]
  | x :: xs => x :: ((xs.dropLast.filter (fun s => !s.isEmpty)) ++ [xs.getLastD []])

/-- CPython `urljoin(base, url)`. -/
def urljoin (base url : Str) : Str :=
  if base = [] then url
  else if url = [] then base
  else
    let b := urlparse base [] true
    let r := urlparse url b.scheme true
    if r.scheme ≠ b.scheme ∨ r.scheme ∉ usesRelative then url
    else
      let netloc := if r.scheme ∈ usesNetloc then
          (if r.netloc ≠ [] then r.netloc else b.netloc) else r.netloc
      if r.scheme ∈ usesNetloc ∧ r.netloc ≠ [] then
        urlunparse ⟨r.scheme, r.netloc, r.path, r.params, r.query, r.frag⟩
      else if r.path = [] ∧ r.params = [] then
        urlunparse ⟨r.scheme, netloc, b.path, b.params,
                    (if r.query = [] then b.query else r.query), r.frag⟩
      else
        let baseParts0 := splitOnChar '/' b.path
        let baseParts := if baseParts0.getLastD [] ≠ [] then baseParts0.dropLast
                         else baseParts0
        let segments :=
          if pyStartsWith r.path "/".toList then splitOnChar '/' r.path
          else filterMiddle (baseParts ++ splitOnChar '/' r.path)
        let resolved := resolveSegs [] segments
        let resolved2 :=
          if segments.getLastD [] = ".".toList ∨
             segments.getLastD [] = "..".toList
          then resolved ++ [[]] else resolved
        let newPath := if joinWithChar '/' resolved2 = [] then "/".toList
                       else joinWithChar '/' resolved2
        urlunparse ⟨r.scheme, netloc, newPath, r.params, r.query, r.frag⟩

/-- CPython `urldefrag(url)`, first component. -/
def urldefrag (url : Str) : Str :=
  if url.contains '#' then
    let p := urlparse url [] true
    urlunparse ⟨p.scheme, p.netloc, p.path, p.params, p.query, []⟩
  else url

/-- ASCII hex digit test used by `unquote`. -/
def isHexChar (c : Char) : Bool :=
  c.isDigit || ('a' ≤ c.toLower && c.toLower ≤ 'f')

/-- ASCII fragment of CPython `unquote`: each `%XX` hex escape becomes the
character with that code point (multi-byte UTF-8 sequences are out of the
modelled subset; the engine's inputs here are ASCII). -/
def unquote : Str → Str
  | [] => []
  | '%' :: a :: b :: rest =>
    if isHexChar a && isHexChar b then
      Char.ofNat (16 * (if a.isDigit then a.toNat - 48
                        else (a.toLower).toNat - 87)
                  + (if b.isDigit then b.toNat - 48
                     else (b.toLower).toNat - 87)) :: unquote rest
    else '%' :: unquote (a :: b :: rest)
  | c :: rest => c :: unquote rest

end PyUrl

/-- The slice of `Settings` that the crawl-and-fetch engine reads
(`tor_proxy`, `timeout` and `user_agent` only configure the HTTP session,
which is external to the model).  The allow-list is modelled as a list of
extension strings, membership standing for Python set membership. -/
structure Settings where
  maxMb : Nat
  allowExt : List Str
  maxFiles : Nat
  maxDepth : Nat
deriving Repr

/-- `FileItem` dataclass (identical in both source files). -/
structure FileItem where
  url : Str
  name : Str
  ext : Str
  pathParts : List Str
deriving DecidableEq, Repr

/-- One event of a streaming response body: a data chunk of the given
length, or a transport error raised at that point of the stream (a failure
of the GET itself is an `err` before any chunk). -/
inductive StreamItem where
  | data (n : Nat)
  | err
deriving DecidableEq, Repr

/-- The directory-URL normalization both crawl loops apply before the
visited-set test: append a trailing separator when absent
(`if not cur.endswith("/"): cur += "/"`). -/
def normalizeDir (cur : Str) : Str :=
  if ¬ pyEndsWith cur "/".toList then cur ++ "/".toList else cur

namespace V1
/-! Model of `src/darkweb_file_downloader.py`. -/

open PyUrl

/-- `ONION_RE.match(url)` ≠ None, for
`^https?://[a-z2-7]{16,56}\.onion(?:/.*)?$` with `re.I` (modelled by
lowercasing first; the host label never contains `.`, so the greedy
character class is equivalent to `takeWhile`). -/
def onionMatch (s0 : Str) : Bool :=
  let s := pyToLower s0
  let restO : Option Str :=
    if pyStartsWith s "https://".toList then some (s.drop 8)
    else if pyStartsWith s "http://".toList then some (s.drop 7)
    else none
  match restO with
  | none => false
  | some rest =>
    let label := rest.takeWhile
      (fun c => ('a' ≤ c && c ≤ 'z') || ('2' ≤ c && c ≤ '7'))
    let tail := rest.drop label.length
    decide (16 ≤ label.length) && decide (label.length ≤ 56) &&
      pyStartsWith tail ".onion".toList &&
      (let rem := tail.drop 6
       rem.isEmpty || pyStartsWith rem "/".toList)

/-- `is_onion_url`. -/
def is_onion_url (url : Str) : Bool := onionMatch (pyStrip url)

/-- `norm_ext_from_name`. -/
def norm_ext_from_name (name0 : Str) : Str :=
  let name := pyToLower (pyStrip name0)
  if ¬ name.contains '.' then []
  else lstripChar '.' ((splitOnChar '.' name).getLastD [])

/-- `safe_join`: strip the fragment, then resolve against the base. -/
def safe_join (baseUrl href : Str) : Str :=
  urljoin baseUrl (urldefrag href)

/-- `should_skip_href`. -/
def should_skip_href (href0 : Str) : Bool :=
  if href0 = [] then true
  else
    let href := pyStrip href0
    if pyStartsWith href "#".toList then true
    else if pyStartsWith (pyToLower href) "javascript:".toList then true
    else if pyStartsWith (pyToLower href) "mailto:".toList then true
    else false

/-- `looks_like_directory_link`. -/
def looks_like_directory_link (href : Str) : Bool :=
  pyEndsWith href "/".toList

/-- `parse_links_from_listing`, taking the ordered raw `href` values that
BeautifulSoup would extract from the page (HTML parsing is the external
collaborator): skip empty/fragment/javascript/mailto anchors, resolve each
against the base, then de-duplicate keeping first-seen order. -/
def parse_links_from_listing (hrefs : List Str) (baseUrl : Str) : List Str :=
  dedupKeepOrder ((hrefs.filter (fun h => !(should_skip_href h))).map
    (safe_join baseUrl))

/-- `guess_name_from_url`. -/
def guess_name_from_url (url : Str) : Str :=
  let p := (urlparse url [] true).path
  if p = [] ∨ pyEndsWith p "/".toList then "index".toList
  else
    let n := (splitOnChar '/' (rstripChar '/' p)).getLastD []
    if n = [] then "file".toList else n

/-- `url_path_parts`. -/
def url_path_parts (url : Str) : List Str :=
  let p := stripChar '/' (urlparse url [] true).path
  if p = [] then []
  else (splitOnChar '/' p).filter (fun x => !x.isEmpty)

/-- `is_allowed`. -/
def is_allowed (fi : FileItem) (s : Settings) : Bool :=
  if fi.ext = [] then false
  else decide (pyToLower fi.ext ∈ s.allowExt)

/-- Body of the per-link `for` loop of `crawl_directory`: same-host check,
parent-traversal check on the whole resolved URL, empty-path check, then
directory (enqueue, depth-bounded) versus leaf (collect).  Returns the
updated collected-files list and the enqueued frontier entries. -/
def handleLink (host : Str) (s : Settings) (depth : Nat) (link : Str)
    (files : List FileItem) (newQ : List (Str × Nat)) :
    List FileItem × List (Str × Nat) :=
  if pyToLower (urlparse link [] true).netloc ≠ host then (files, newQ)
  else if pyEndsWith (rstripChar '/' link) "..".toList then (files, newQ)
  else
    let path := (urlparse link [] true).path
    if path = [] then (files, newQ)
    else if looks_like_directory_link path then
      (files,
       if depth + 1 ≤ s.maxDepth then newQ ++ [(link, depth + 1)] else newQ)
    else
      let name := guess_name_from_url link
      let ext := norm_ext_from_name name
      (files ++ [⟨link, name, ext, url_path_parts link⟩], newQ)

/-- The per-page `for link in links` loop, with its leading
`len(files) >= max_files: break` check. -/
def processLinks (host : Str) (s : Settings) (depth : Nat) :
    List Str → List FileItem → List (Str × Nat) →
    List FileItem × List (Str × Nat)
  | [], files, newQ => (files, newQ)
  | link :: rest, files, newQ =>
    if s.maxFiles ≤ files.length then (files, newQ)
    else
      let r := handleLink host s depth link files newQ
      processLinks host s depth rest r.1 r.2

/-- State of the `while` loop of `crawl_directory`.  `fetched` is a ghost
trace recording each `fetch_text` call with the depth of the frontier
entry that caused it; it mirrors no program variable and is read only by
theorems. -/
structure CrawlState where
  files : List FileItem
  visited : List Str
  q : List (Str × Nat)
  fetched : List (Str × Nat)
deriving DecidableEq, Repr

/-- The `while q and len(files) < settings.max_files` loop of
`crawl_directory`.  `ph` is the composition of the external collaborators
`fetch_text` + BeautifulSoup href extraction: the ordered raw `href`
values of the page at a URL, `none` when the fetch raises.  `fuel` bounds
the number of iterations; every claim below is either a safety property
(true for every fuel) or a concrete run whose frontier empties within the
given fuel. -/
def crawlLoop (ph : Str → Option (List Str)) (s : Settings) (host : Str) :
    Nat → CrawlState → CrawlState
  | 0, st => st
  | fuel + 1, st =>
    match st.q with
    | [] => st
    | (cur, depth) :: rest =>
      if s.maxFiles ≤ st.files.length then st
      else if s.maxDepth < depth then
        crawlLoop ph s host fuel { st with q := rest }
      else
        let curDir := normalizeDir cur
        if curDir ∈ st.visited then crawlLoop ph s host fuel { st with q := rest }
        else
          let st1 : CrawlState :=
            { st with q := rest, visited := curDir :: st.visited,
                      fetched := st.fetched ++ [(curDir, depth)] }
          match ph curDir with
          | none => crawlLoop ph s host fuel st1
          | some hrefs =>
            let links := parse_links_from_listing hrefs curDir
            let r := processLinks host s depth links st1.files []
            crawlLoop ph s host fuel
              { st1 with files := r.1, q := st1.q ++ r.2 }

/-- `crawl_directory`: validate the root, derive the host, run the BFS
from `[(root_url, 0)]`.  `none` models the `ValueError` raised on a
non-onion root; otherwise the final loop state is returned (the Python
function returns its `files` component). -/
def crawl_directory (ph : Str → Option (List Str)) (rootUrl : Str)
    (s : Settings) (fuel : Nat) : Option CrawlState :=
  let root := pyStrip rootUrl
  if ¬ is_onion_url root then none
  else
    let host := pyToLower (urlparse root [] true).netloc
    some (crawlLoop ph s host fuel ⟨[], [], [(root, 0)], []⟩)

/-- `estimate_size_bytes`: HEAD result, else the ranged-GET fallback.  The
two header-parsing probes are modelled as oracles for their results. -/
def estimate_size_bytes (head fallback : Option Nat) : Option Nat :=
  match head with
  | some n => some n
  | none => fallback

/-- Outcome of `download_one` (`(ok, msg)` in the source, with the four
message shapes). -/
inductive FetchOutcome where
  | ok (bytes : Nat)
  | skipTooLarge
  | skipExceeded
  | failed
deriving DecidableEq, Repr

/-- Result of `download_one` together with the modelled file system and
ghost observations: `file` is the destination file after return (`none`
absent, `some n` present with `n` bytes), `openedBodyGet` records whether
the streaming `session.get` for the file body was issued, and
`writeSizes` records the file size after each chunk write. -/
structure FetchResult where
  outcome : FetchOutcome
  file : Option Nat
  openedBodyGet : Bool
  writeSizes : List Nat
deriving DecidableEq, Repr

/-- The `async for chunk in resp.content.iter_chunked(...)` loop of
`download_one`: skip empty chunks, count the chunk, stop and delete the
partial file when the counter crosses `max_bytes` (the crossing chunk is
never written), otherwise write it; a transport error deletes the partial
file and fails; normal end of stream reports the counter.  `unlink` is
modelled as effective (its best-effort `except: pass` wrapper is for
file-system errors outside the model). -/
def streamLoop (maxBytes : Nat) :
    List StreamItem → Nat → Nat → List Nat →
    FetchOutcome × Option Nat × List Nat
  | [], downloaded, fileSize, ws => (.ok downloaded, some fileSize, ws)
  | .err :: _, _, _, ws => (.failed, none, ws)
  | .data n :: rest, downloaded, fileSize, ws =>
    if n = 0 then streamLoop maxBytes rest downloaded fileSize ws
    else
      if maxBytes < downloaded + n then (.skipExceeded, none, ws)
      else streamLoop maxBytes rest (downloaded + n) (fileSize + n)
        (ws ++ [fileSize + n])

/-- `download_one`: best-effort size gate (skip without opening the body
GET when the estimate exceeds the cap), then the streaming loop over the
response body, starting from a freshly created empty destination file. -/
def download_one (head fallback : Option Nat) (stream : List StreamItem)
    (s : Settings) : FetchResult :=
  let est := estimate_size_bytes head fallback
  let maxBytes := s.maxMb * 1024 * 1024
  let gate : Bool := match est with
    | some e => decide (maxBytes < e)
    | none => false
  if gate then ⟨.skipTooLarge, none, false, []⟩
  else
    let r := streamLoop maxBytes stream 0 0 []
    ⟨r.1, r.2.1, true, r.2.2⟩

end V1

namespace V2
/-! Model of `src/darkweb-file-downloader.py`. -/

open PyUrl

/-- `norm_ext`. -/
def norm_ext (name0 : Str) : Str :=
  let name := pyToLower (pyStrip name0)
  if ¬ name.contains '.' then []
  else lstripChar '.' ((splitOnChar '.' name).getLastD [])

/-- `should_skip_href`. -/
def should_skip_href (href0 : Str) : Bool :=
  if href0 = [] then true
  else
    let href := pyStrip href0
    if pyStartsWith href "#".toList then true
    else
      let h := pyToLower href
      pyStartsWith h "javascript:".toList || pyStartsWith h "mailto:".toList

/-- `safe_join`. -/
def safe_join (baseUrl href : Str) : Str :=
  urljoin baseUrl (urldefrag href)

/-- `looks_like_directory_path`. -/
def looks_like_directory_path (path : Str) : Bool :=
  pyEndsWith path "/".toList

/-- `url_path_parts`. -/
def url_path_parts (url : Str) : List Str :=
  let p := stripChar '/' (urlparse url [] true).path
  if p = [] then []
  else (splitOnChar '/' p).filter (fun x => !x.isEmpty)

/-- `parse_links`, over the raw hrefs the external HTML parser yields. -/
def parse_links (hrefs : List Str) (baseUrl : Str) : List Str :=
  dedupKeepOrder ((hrefs.filter (fun h => !(should_skip_href h))).map
    (safe_join baseUrl))

/-- `is_allowed_ext`. -/
def is_allowed_ext (ext : Str) (s : Settings) : Bool :=
  if ext = [] then false
  else decide (pyToLower ext ∈ s.allowExt)

/-- `guess_name_from_url` (percent-decodes the final segment, default
`"file"`). -/
def guess_name_from_url (url : Str) : Str :=
  let p := (urlparse url [] true).path
  if p = [] ∨ pyEndsWith p "/".toList then "file".toList
  else
    let n := (splitOnChar '/' (rstripChar '/' p)).getLastD []
    unquote (if n = [] then "file".toList else n)

/-- `parse_filename_from_content_disposition`. -/
def parse_filename_from_content_disposition (cd : Str) : Option Str :=
  if cd = [] then none
  else if ¬ containsSub (pyToLower cd) "filename=".toList then none
  else
    let part0 := match splitOnceSub "filename=".toList cd with
      | some r => r.2
      | none => cd
    let part1 := pyStrip part0
    let part2 :=
      if pyStartsWith part1 "\"".toList ∧ (part1.drop 1).contains '"' then
        (splitCharAtMost '"' 2 part1).getD 1 []
      else
        stripChar (Char.ofNat 39)
          (stripChar '"' (pyStrip (splitFirstChar ';' part1).1))
    let part3 := pyStrip part2
    if part3 = [] then none else some part3

/-- A raw HEAD response: header values as the server sent them (`none`
when the header is absent).  The whole response is wrapped in `Option` by
the callers: `none` models the request raising. -/
structure HeadResp where
  contentType : Option Str
  contentDisposition : Option Str
  contentLength : Option Str
deriving DecidableEq, Repr

/-- `head_info`: lowercased content type, raw content disposition, parsed
content length; `(None, "", "")` when the request raises. -/
def head_info (resp : Option HeadResp) : Option Nat × Str × Str :=
  match resp with
  | none => (none, [], [])
  | some r =>
    let ct := pyToLower (r.contentType.getD [])
    let cd := r.contentDisposition.getD []
    let size := match r.contentLength with
      | some cl => if cl ≠ [] ∧ cl.all Char.isDigit
                   then some (natOfDigits cl) else none
      | none => none
    (size, ct, cd)

/-- `is_probably_html`. -/
def is_probably_html (resp : Option HeadResp) : Bool :=
  let ct := (head_info resp).2.1
  containsSub ct "text/html".toList || containsSub ct "application/xhtml".toList

/-- Root dispatch of `mode_download` (`mode_list`, `mode_count` and
`mode_size` use the same test): a root URL without a trailing separator
whose HEAD probe does not look like HTML goes to `download_direct_file`,
everything else goes to `crawl_directory`. -/
inductive RootRoute where
  | directFile
  | directoryCrawl
deriving DecidableEq, Repr

/-- The `if not root_url.endswith("/") and not await is_probably_html(...)`
dispatch. -/
def mode_download_route (rootUrl : Str) (resp : Option HeadResp) : RootRoute :=
  if ¬ pyEndsWith rootUrl "/".toList ∧ ¬ is_probably_html resp then
    .directFile
  else .directoryCrawl

/-- Body of the per-link `for` loop of `V2.crawl_directory`: same-host
check, parent-traversal check on the parsed path, directory versus leaf,
and the `if not ext: continue` filter that drops extension-less leaves. -/
def handleLink (host : Str) (s : Settings) (depth : Nat) (link : Str)
    (files : List FileItem) (newQ : List (Str × Nat)) :
    List FileItem × List (Str × Nat) :=
  let u := urlparse link [] true
  if pyToLower u.netloc ≠ host then (files, newQ)
  else if pyEndsWith (rstripChar '/' u.path) "..".toList then (files, newQ)
  else if looks_like_directory_path u.path then
    (files,
     if depth + 1 ≤ s.maxDepth then newQ ++ [(link, depth + 1)] else newQ)
  else
    let name := guess_name_from_url link
    let ext := norm_ext name
    if ext = [] then (files, newQ)
    else (files ++ [⟨link, name, ext, url_path_parts link⟩], newQ)

/-- The per-page `for link in links` loop with its
`len(files) >= max_files: break` check. -/
def processLinks (host : Str) (s : Settings) (depth : Nat) :
    List Str → List FileItem → List (Str × Nat) →
    List FileItem × List (Str × Nat)
  | [], files, newQ => (files, newQ)
  | link :: rest, files, newQ =>
    if s.maxFiles ≤ files.length then (files, newQ)
    else
      let r := handleLink host s depth link files newQ
      processLinks host s depth rest r.1 r.2

/-- Loop state of `V2.crawl_directory`, with the same ghost `fetched`
trace as `V1.CrawlState`. -/
structure CrawlState where
  files : List FileItem
  visited : List Str
  q : List (Str × Nat)
  fetched : List (Str × Nat)
deriving DecidableEq, Repr

/-- The `while` loop of `V2.crawl_directory`. -/
def crawlLoop (ph : Str → Option (List Str)) (s : Settings) (host : Str) :
    Nat → CrawlState → CrawlState
  | 0, st => st
  | fuel + 1, st =>
    match st.q with
    | [] => st
    | (cur, depth) :: rest =>
      if s.maxFiles ≤ st.files.length then st
      else if s.maxDepth < depth then
        crawlLoop ph s host fuel { st with q := rest }
      else
        let curDir := normalizeDir cur
        if curDir ∈ st.visited then crawlLoop ph s host fuel { st with q := rest }
        else
          let st1 : CrawlState :=
            { st with q := rest, visited := curDir :: st.visited,
                      fetched := st.fetched ++ [(curDir, depth)] }
          match ph curDir with
          | none => crawlLoop ph s host fuel st1
          | some hrefs =>
            let links := parse_links hrefs curDir
            let r := processLinks host s depth links st1.files []
            crawlLoop ph s host fuel
              { st1 with files := r.1, q := st1.q ++ r.2 }

/-- `V2.crawl_directory`: strip the root, force a trailing separator, run
the BFS from `[(root_url, 0)]` (no onion validation in this variant). -/
def crawl_directory (ph : Str → Option (List Str)) (rootUrl : Str)
    (s : Settings) (fuel : Nat) : CrawlState :=
  let root0 := pyStrip rootUrl
  let root := if ¬ pyEndsWith root0 "/".toList then root0 ++ "/".toList
              else root0
  let host := pyToLower (urlparse root [] true).netloc
  crawlLoop ph s host fuel ⟨[], [], [(root, 0)], []⟩

/-- Decision prefix of `download_direct_file`: derive the file name from
the Content-Disposition header or the URL, then the extension gate
(reject only a non-empty disallowed extension) and the declared-size gate. -/
inductive DirectGate where
  | rejectedNotAllowed
  | rejectedTooLarge
  | proceeds
deriving DecidableEq, Repr

/-- File-name derivation of `download_direct_file`: the
Content-Disposition file name when present, else the name guessed from the
URL, with the `"file"` fallback. -/
def direct_fname (url : Str) (resp : Option HeadResp) : Str :=
  let fname0 := (parse_filename_from_content_disposition
    (head_info resp).2.2).getD (guess_name_from_url url)
  if fname0 = [] then "file".toList else fname0

/-- The name derivation and the two early-return gates of
`download_direct_file` (everything before the streaming GET). -/
def direct_file_gate (url : Str) (resp : Option HeadResp) (s : Settings) :
    DirectGate :=
  let ext := norm_ext (direct_fname url resp)
  if ext ≠ [] ∧ is_allowed_ext ext s = false then .rejectedNotAllowed
  else
    let maxBytes := s.maxMb * 1024 * 1024
    match (head_info resp).1 with
    | some sz => if maxBytes < sz then .rejectedTooLarge else .proceeds
    | none => .proceeds

/-- Outcome of the per-file download body of `V2.mode_download`. -/
inductive V2Outcome where
  | ok (bytes : Nat)
  | skipTooLarge
  | skipExceeded
  | failed
deriving DecidableEq, Repr

/-- The chunk loop of `V2.mode_download`: returns `none` on a transport
error, otherwise the final `(downloaded, exceeded, fileSize)` triple;
second component of the pair is the ghost trace of file sizes after each
write.  The chunk that crosses the limit sets `exceeded` and breaks
before being written. -/
def chunkPhase (maxBytes : Nat) :
    List StreamItem → Nat → Nat → List Nat →
    Option (Nat × Bool × Nat) × List Nat
  | [], downloaded, fileSize, ws => (some (downloaded, false, fileSize), ws)
  | .err :: _, _, _, ws => (none, ws)
  | .data n :: rest, downloaded, fileSize, ws =>
    if n = 0 then chunkPhase maxBytes rest downloaded fileSize ws
    else
      if maxBytes < downloaded + n then
        (some (downloaded + n, true, fileSize), ws)
      else chunkPhase maxBytes rest (downloaded + n) (fileSize + n)
        (ws ++ [fileSize + n])

/-- The per-file download of the `for fi in allowed` loop of
`V2.mode_download`: size gate from the HEAD probe, then the chunk loop;
`exceeded` deletes the partial file and counts as a skip, a transport
error deletes the partial file and counts as a failure. -/
def mode_download_one (size : Option Nat) (stream : List StreamItem)
    (s : Settings) : V2Outcome × Option Nat × List Nat :=
  let maxBytes := s.maxMb * 1024 * 1024
  let gate : Bool := match size with
    | some sz => decide (maxBytes < sz)
    | none => false
  if gate then (.skipTooLarge, none, [])
  else
    match chunkPhase maxBytes stream 0 0 [] with
    | (none, ws) => (.failed, none, ws)
    | (some r, ws) =>
      if r.2.1 then (.skipExceeded, none, ws)
      else (.ok r.1, some r.2.2, ws)

end V2

/-! ## Helper lemmas -/

/-- Shorthand for writing modelled Python strings. -/
def S (s : String) : Str := s.toList

/-- Oracle for the quota witnesses: every fetch raises. -/
def phNone : Str → Option (List Str) := fun _ => none

/-- Witness root URL (valid onion host of sixteen `a`s). -/
def rootW : Str := S "http://aaaaaaaaaaaaaaaa.onion/"

/-- Witness settings. -/
def setW : Settings := ⟨1, [], 5, 2⟩

/-- Final crawl state of the `phNone` witness run: the root was fetched
once at depth 0, no links were found. -/
def stW : V1.CrawlState := ⟨[], [rootW], [], [(rootW, 0)]⟩

/-- Page oracle for the spec scenario of C2: the root directory links to
`a.pdf`, `sub/` and `../escape`; the `sub/` page is empty. -/
def phC2 : Str → Option (List Str) := fun u =>
  if u = S "http://aaaaaaaaaaaaaaaa.onion/docs/" then
    some [S "a.pdf", S "sub/", S "../escape"]
  else if u = S "http://aaaaaaaaaaaaaaaa.onion/docs/sub/" then some []
  else none

/-- Root of the C2 scenario. -/
def rootDocs : Str := S "http://aaaaaaaaaaaaaaaa.onion/docs/"

/-- Settings of the C2 scenario (`max_depth = 1`, allow-list `{pdf}`). -/
def setC2 : Settings := ⟨150, [S "pdf"], 200, 1⟩

/-- Page oracle for C3: the root links to an `https` URL on the same
host as the `http` root. -/
def phC3 : Str → Option (List Str) := fun u =>
  if u = S "http://aaaaaaaaaaaaaaaa.onion/" then
    some [S "https://aaaaaaaaaaaaaaaa.onion/x.pdf"]
  else none

/-- Page oracle for C6: two distinct directory pages both link (via an
absolute path) to the same file URL. -/
def phC6 : Str → Option (List Str) := fun u =>
  if u = S "http://aaaaaaaaaaaaaaaa.onion/" then some [S "d1/", S "d2/"]
  else if u = S "http://aaaaaaaaaaaaaaaa.onion/d1/" then
    some [S "/shared.pdf"]
  else if u = S "http://aaaaaaaaaaaaaaaa.onion/d2/" then
    some [S "/shared.pdf"]
  else none

/-- `V1.streamLoop` keeps its byte counter equal to the destination file
size: started with equal counters, the final file is `some n` exactly when
the outcome is `ok n`, and absent on the exceeded and error outcomes. -/
theorem streamLoop_file_eq (mb : Nat) :
    ∀ (stream : List StreamItem) (d : Nat) (ws : List Nat),
      (V1.streamLoop mb stream d d ws).2.1 =
        (match (V1.streamLoop mb stream d d ws).1 with
         | .ok n => some n
         | _ => none) := by
  intro stream
  induction stream with
  | nil => intro d ws; rfl
  | cons item rest ih =>
    intro d ws
    cases item with
    | err => rfl
    | data n =>
      simp only [V1.streamLoop]
      split
      · exact ih d ws
      · split
        · rfl
        · exact ih (d + n) (ws ++ [d + n])

/-- Every file size recorded by a `V1.streamLoop` write is at most the
byte ceiling, provided the incoming trace already satisfies the bound and
the counters are equal. -/
theorem streamLoop_writes_bounded (mb : Nat) :
    ∀ (stream : List StreamItem) (d : Nat) (ws : List Nat),
      (∀ x ∈ ws, x ≤ mb) →
      ∀ x ∈ (V1.streamLoop mb stream d d ws).2.2, x ≤ mb := by
  intro stream
  induction stream with
  | nil => intro d ws hws; exact hws
  | cons item rest ih =>
    intro d ws hws
    cases item with
    | err => exact hws
    | data n =>
      simp only [V1.streamLoop]
      split
      · exact ih d ws hws
      · split
        · next h =>
          exact hws
        · next h =>
          refine ih (d + n) (ws ++ [d + n]) ?_
          intro x hx
          rcases List.mem_append.mp hx with hx | hx
          · exact hws x hx
          · rcases List.mem_singleton.mp hx with rfl
            exact Nat.le_of_not_lt h

/-- `V2.chunkPhase` keeps its byte counter equal to the file size: when it
ends without a transport error and without tripping the cap, the file size
equals the reported downloaded count. -/
theorem chunkPhase_file_eq (mb : Nat) :
    ∀ (stream : List StreamItem) (d : Nat) (ws : List Nat),
      (match (V2.chunkPhase mb stream d d ws).1 with
       | some (dl, false, fs) => fs = dl
       | _ => True) := by
  intro stream
  induction stream with
  | nil => intro d ws; exact rfl
  | cons item rest ih =>
    intro d ws
    cases item with
    | err => exact trivial
    | data n =>
      simp only [V2.chunkPhase]
      by_cases h0 : n = 0
      · rw [if_pos h0]; exact ih d ws
      · rw [if_neg h0]
        by_cases h1 : mb < d + n
        · rw [if_pos h1]; exact trivial
        · rw [if_neg h1]; exact ih (d + n) (ws ++ [d + n])

/-- Every file size recorded by a `V2.chunkPhase` write is at most the
byte ceiling. -/
theorem chunkPhase_writes_bounded (mb : Nat) :
    ∀ (stream : List StreamItem) (d : Nat) (ws : List Nat),
      (∀ x ∈ ws, x ≤ mb) →
      ∀ x ∈ (V2.chunkPhase mb stream d d ws).2, x ≤ mb := by
  intro stream
  induction stream with
  | nil => intro d ws hws; exact hws
  | cons item rest ih =>
    intro d ws hws
    cases item with
    | err => exact hws
    | data n =>
      simp only [V2.chunkPhase]
      split
      · exact ih d ws hws
      · split
        · next h =>
          exact hws
        · next h =>
          refine ih (d + n) (ws ++ [d + n]) ?_
          intro x hx
          rcases List.mem_append.mp hx with hx | hx
          · exact hws x hx
          · rcases List.mem_singleton.mp hx with rfl
            exact Nat.le_of_not_lt h

/-! ## Claim C1 -/

/-- C1: in both variants of the streaming fetcher, after the fetch returns
the destination file is absent or present with size exactly the reported
downloaded byte count: on the full-success outcome the file holds exactly
the reported bytes, and on the mid-transfer-overflow outcome and on every
transport-error outcome the partial file has been deleted (`file = none`);
for the size-gate skip no file was ever created. -/
theorem claim1_fetch_file_absent_or_complete :
    (∀ (head fallback : Option Nat) (stream : List StreamItem) (s : Settings),
      (V1.download_one head fallback stream s).file =
        (match (V1.download_one head fallback stream s).outcome with
         | .ok n => some n
         | _ => none)) ∧
    (∀ (size : Option Nat) (stream : List StreamItem) (s : Settings),
      (V2.mode_download_one size stream s).2.1 =
        (match (V2.mode_download_one size stream s).1 with
         | .ok n => some n
         | _ => none)) := by
  constructor
  · intro head fallback stream s
    simp only [V1.download_one]
    split
    · rfl
    · simpa using streamLoop_file_eq (s.maxMb * 1024 * 1024) stream 0 []
  · intro size stream s
    simp only [V2.mode_download_one]
    split
    · rfl
    · have h := chunkPhase_file_eq (s.maxMb * 1024 * 1024) stream 0 []
      rcases hc : V2.chunkPhase (s.maxMb * 1024 * 1024) stream 0 0 [] with ⟨r, ws⟩
      rw [hc] at h
      rcases r with _ | ⟨dl, exceeded, fs⟩
      · rfl
      · cases exceeded
        · exact congrArg some h
        · rfl

/-! ## Claim C9 -/

/-- C9: when a size estimate is available and strictly exceeds the byte
ceiling `max_mb * 1024 * 1024`, `download_one` returns the too-large skip
outcome, the streaming GET for the file body is never issued, and no
destination file is created. -/
theorem claim9_size_gate_skips_without_body_get :
    ∀ (head fallback : Option Nat) (stream : List StreamItem) (s : Settings)
      (e : Nat),
      V1.estimate_size_bytes head fallback = some e →
      s.maxMb * 1024 * 1024 < e →
      (V1.download_one head fallback stream s).outcome =
          V1.FetchOutcome.skipTooLarge ∧
      (V1.download_one head fallback stream s).openedBodyGet = false ∧
      (V1.download_one head fallback stream s).file = none := by
  intro head fallback stream s e hest hgt
  simp only [V1.download_one, hest]
  simp only [decide_eq_true hgt, if_true]
  exact ⟨trivial, trivial, trivial⟩

/-- Witness for C9: with `max_mb = 1` and a HEAD-reported size of
2 MiB > 1 MiB, the fetch is skipped as too large with no body GET. -/
theorem claim9_witness :
    V1.estimate_size_bytes (some 2097152) none = some 2097152 ∧
    1 * 1024 * 1024 < 2097152 ∧
    ((V1.download_one (some 2097152) none [.data 5] ⟨1, [], 200, 2⟩).outcome =
        V1.FetchOutcome.skipTooLarge ∧
      (V1.download_one (some 2097152) none [.data 5] ⟨1, [], 200, 2⟩).openedBodyGet
        = false ∧
      (V1.download_one (some 2097152) none [.data 5] ⟨1, [], 200, 2⟩).file
        = none) :=
  ⟨rfl, by decide,
   claim9_size_gate_skips_without_body_get (some 2097152) none [.data 5]
     ⟨1, [], 200, 2⟩ 2097152 rfl (by decide)⟩

/-! ## Claim C10 -/

/-- C10: at every point of a streaming download, in both variants, the
number of bytes written to the destination file never exceeds the ceiling
`max_mb * 1024 * 1024`: the counter is incremented and compared before the
chunk is written, so the crossing chunk is never written. -/
theorem claim10_writes_never_exceed_cap :
    (∀ (head fallback : Option Nat) (stream : List StreamItem) (s : Settings)
       (x : Nat),
      x ∈ (V1.download_one head fallback stream s).writeSizes →
      x ≤ s.maxMb * 1024 * 1024) ∧
    (∀ (size : Option Nat) (stream : List StreamItem) (s : Settings)
       (x : Nat),
      x ∈ (V2.mode_download_one size stream s).2.2 →
      x ≤ s.maxMb * 1024 * 1024) := by
  constructor
  · intro head fallback stream s x hx
    revert hx
    simp only [V1.download_one]
    split
    · intro hx; exact absurd hx (List.not_mem_nil x)
    · intro hx
      exact streamLoop_writes_bounded (s.maxMb * 1024 * 1024) stream 0 []
        (by intro y hy; simp at hy) x (by simpa using hx)
  · intro size stream s x hx
    revert hx
    simp only [V2.mode_download_one]
    split
    · intro hx; exact absurd hx (List.not_mem_nil x)
    · intro hx
      have hb := chunkPhase_writes_bounded (s.maxMb * 1024 * 1024) stream 0 []
        (by intro y hy; simp at hy) x
      rcases hc : V2.chunkPhase (s.maxMb * 1024 * 1024) stream 0 0 [] with
        ⟨r, ws⟩
      rw [hc] at hb
      refine hb ?_
      rw [hc] at hx
      rcases r with _ | r
      · simpa using hx
      · rcases hr : r.2.1 with _ | _ <;> simp [hr] at hx <;> exact hx

/-- `V1.handleLink` appends at most one leaf to the collected files. -/
theorem v1_handleLink_len (host : Str) (s : Settings) (depth : Nat)
    (link : Str) (files : List FileItem) (newQ : List (Str × Nat)) :
    (V1.handleLink host s depth link files newQ).1.length ≤
      files.length + 1 := by
  simp only [V1.handleLink]
  split_ifs <;> simp

/-- The per-page loop of `V1.crawl_directory` never grows the collected
files past `max_files`. -/
theorem v1_processLinks_len (host : Str) (s : Settings) (depth : Nat) :
    ∀ (links : List Str) (files : List FileItem) (newQ : List (Str × Nat)),
      files.length ≤ s.maxFiles →
      (V1.processLinks host s depth links files newQ).1.length ≤ s.maxFiles := by
  intro links
  induction links with
  | nil => intro files newQ h; exact h
  | cons link rest ih =>
    intro files newQ h
    simp only [V1.processLinks]
    split
    · exact h
    · next hlt =>
      refine ih _ _ ?_
      have hone := v1_handleLink_len host s depth link files newQ
      omega

/-- Combined loop invariant of `V1.crawlLoop`: the collected-file count
stays within `max_files`, every fetch was issued for an entry of depth at
most `max_depth`, no normalized directory URL is fetched twice, and every
fetched URL has been marked visited. -/
theorem v1_crawlLoop_inv (ph : Str → Option (List Str)) (s : Settings)
    (host : Str) :
    ∀ (fuel : Nat) (st : V1.CrawlState),
      st.files.length ≤ s.maxFiles →
      (∀ p ∈ st.fetched, p.2 ≤ s.maxDepth) →
      (st.fetched.map Prod.fst).Nodup →
      (∀ u ∈ st.fetched.map Prod.fst, u ∈ st.visited) →
      ((V1.crawlLoop ph s host fuel st).files.length ≤ s.maxFiles ∧
       (∀ p ∈ (V1.crawlLoop ph s host fuel st).fetched, p.2 ≤ s.maxDepth) ∧
       ((V1.crawlLoop ph s host fuel st).fetched.map Prod.fst).Nodup ∧
       (∀ u ∈ (V1.crawlLoop ph s host fuel st).fetched.map Prod.fst,
          u ∈ (V1.crawlLoop ph s host fuel st).visited)) := by
  intro fuel
  induction fuel with
  | zero => intro st h1 h2 h3 h4; exact ⟨h1, h2, h3, h4⟩
  | succ n ih =>
    intro st h1 h2 h3 h4
    obtain ⟨files, visited, q, fetched⟩ := st
    rcases q with _ | ⟨⟨cur, depth⟩, rest⟩
    · exact ⟨h1, h2, h3, h4⟩
    · simp only [V1.crawlLoop]
      split
      · exact ⟨h1, h2, h3, h4⟩
      · next hmax =>
        split
        · exact ih _ h1 h2 h3 h4
        · next hdep =>
          have hdep' : depth ≤ s.maxDepth := Nat.le_of_not_lt hdep
          have h2' : ∀ p ∈ fetched ++ [(normalizeDir cur, depth)],
              p.2 ≤ s.maxDepth := by
            intro p hp
            rcases List.mem_append.mp hp with hp | hp
            · exact h2 p hp
            · rcases List.mem_singleton.mp hp with rfl
              exact hdep'
          split
          · exact ih _ h1 h2 h3 h4
          · next hvis =>
            have hnotf : normalizeDir cur ∉ fetched.map Prod.fst := fun hmem =>
              hvis (h4 (normalizeDir cur) hmem)
            have h3' : ((fetched ++ [(normalizeDir cur, depth)]).map
                Prod.fst).Nodup := by
              rw [List.map_append, List.nodup_append]
              refine ⟨h3, List.nodup_singleton _, ?_⟩
              intro u hu hu2
              rcases List.mem_singleton.mp hu2 with rfl
              exact hnotf hu
            have h4' : ∀ u ∈ (fetched ++ [(normalizeDir cur, depth)]).map
                Prod.fst, u ∈ normalizeDir cur :: visited := by
              intro u hu
              rw [List.map_append] at hu
              rcases List.mem_append.mp hu with hu | hu
              · exact List.mem_cons_of_mem _ (h4 u hu)
              · rcases List.mem_singleton.mp hu with rfl
                exact List.mem_cons_self _ _
            split
            · exact ih _ h1 h2' h3' h4'
            · refine ih _ ?_ h2' h3' h4'
              exact v1_processLinks_len host s depth _ files []
                (Nat.le_of_lt (Nat.lt_of_not_le hmax))

/-! ## Claim C4 -/

/-- C4: every `crawl_directory` invocation returns at most
`policy.max_files` leaves, and no frontier entry with depth exceeding
`policy.max_depth` is ever fetched (the ghost fetch trace records only
entries of depth at most `max_depth`). -/
theorem claim4_crawl_quota_and_depth :
    ∀ (ph : Str → Option (List Str)) (rootUrl : Str) (s : Settings)
      (fuel : Nat) (st : V1.CrawlState),
      V1.crawl_directory ph rootUrl s fuel = some st →
      st.files.length ≤ s.maxFiles ∧ ∀ p ∈ st.fetched, p.2 ≤ s.maxDepth := by
  intro ph rootUrl s fuel st h
  simp only [V1.crawl_directory] at h
  split_ifs at h
  have h' := Option.some.inj h
  subst h'
  have hinv := v1_crawlLoop_inv ph s
    (pyToLower (PyUrl.urlparse (pyStrip rootUrl) [] true).netloc) fuel
    ⟨[], [], [(pyStrip rootUrl, 0)], []⟩ (Nat.zero_le _)
    (by intro p hp; simp at hp) (by simp) (by simp)
  exact ⟨hinv.1, hinv.2.1⟩

/-- Witness for C4: on a concrete crawl the result respects the file quota
and the one fetched entry has depth within the bound. -/
theorem claim4_witness :
    stW.files.length ≤ setW.maxFiles ∧ (rootW, 0).2 ≤ setW.maxDepth :=
  have h := claim4_crawl_quota_and_depth phNone rootW setW 3 stW (by decide)
  ⟨h.1, h.2 (rootW, 0) (by simp [stW])⟩

/-- Witness for C10: a concrete stream whose third chunk crosses a 1 MiB
cap; the recorded write sizes stay at or below the cap. -/
theorem claim10_witness :
    524288 ∈ (V1.download_one none none
        [.data 524288, .data 524288, .data 524288] ⟨1, [], 200, 2⟩).writeSizes ∧
    524288 ≤ 1 * 1024 * 1024 :=
  ⟨by decide,
   claim10_writes_never_exceed_cap.1 none none
     [.data 524288, .data 524288, .data 524288] ⟨1, [], 200, 2⟩ 524288
     (by decide)⟩

/-- Combined loop invariant of `V2.crawlLoop`: no normalized directory URL
is fetched twice, and every fetched URL has been marked visited. -/
theorem v2_crawlLoop_inv (ph : Str → Option (List Str)) (s : Settings)
    (host : Str) :
    ∀ (fuel : Nat) (st : V2.CrawlState),
      (st.fetched.map Prod.fst).Nodup →
      (∀ u ∈ st.fetched.map Prod.fst, u ∈ st.visited) →
      (((V2.crawlLoop ph s host fuel st).fetched.map Prod.fst).Nodup ∧
       ∀ u ∈ (V2.crawlLoop ph s host fuel st).fetched.map Prod.fst,
         u ∈ (V2.crawlLoop ph s host fuel st).visited) := by
  intro fuel
  induction fuel with
  | zero => intro st h3 h4; exact ⟨h3, h4⟩
  | succ n ih =>
    intro st h3 h4
    obtain ⟨files, visited, q, fetched⟩ := st
    rcases q with _ | ⟨⟨cur, depth⟩, rest⟩
    · exact ⟨h3, h4⟩
    · simp only [V2.crawlLoop]
      split
      · exact ⟨h3, h4⟩
      · split
        · exact ih _ h3 h4
        · split
          · exact ih _ h3 h4
          · next hvis =>
            have hnotf : normalizeDir cur ∉ fetched.map Prod.fst := fun hmem =>
              hvis (h4 (normalizeDir cur) hmem)
            have h3' : ((fetched ++ [(normalizeDir cur, depth)]).map
                Prod.fst).Nodup := by
              rw [List.map_append, List.nodup_append]
              refine ⟨h3, List.nodup_singleton _, ?_⟩
              intro u hu hu2
              rcases List.mem_singleton.mp hu2 with rfl
              exact hnotf hu
            have h4' : ∀ u ∈ (fetched ++ [(normalizeDir cur, depth)]).map
                Prod.fst, u ∈ normalizeDir cur :: visited := by
              intro u hu
              rw [List.map_append] at hu
              rcases List.mem_append.mp hu with hu | hu
              · exact List.mem_cons_of_mem _ (h4 u hu)
              · rcases List.mem_singleton.mp hu with rfl
                exact List.mem_cons_self _ _
            split
            · exact ih _ h3' h4'
            · exact ih _ h3' h4'

/-- Appending the separator makes `pyEndsWith · "/"` true. -/
theorem pyEndsWith_append_slash (u : Str) :
    pyEndsWith (u ++ "/".toList) "/".toList = true := by
  have hs : ("/".toList : Str) = ['/'] := rfl
  rw [hs]
  simp [pyEndsWith, List.isSuffixOf, List.reverse_append, List.isPrefixOf]

/-- The crawl normalization identifies a URL with its trailing-separator
form. -/
theorem normalizeDir_trailing (u : Str)
    (h : pyEndsWith u "/".toList = false) :
    normalizeDir u = normalizeDir (u ++ "/".toList) := by
  unfold normalizeDir
  rw [h, pyEndsWith_append_slash]
  simp

/-! ## Claim C5 -/

/-- C5: neither variant of `crawl_directory` ever fetches the same
normalized directory URL twice (the ghost fetch traces are duplicate-free),
and the normalization (appending a trailing separator) identifies two
frontier entries differing only in the trailing separator, so the later
duplicate is never fetched. -/
theorem claim5_no_normalized_dir_fetched_twice :
    (∀ (ph : Str → Option (List Str)) (rootUrl : Str) (s : Settings)
       (fuel : Nat) (st : V1.CrawlState),
      V1.crawl_directory ph rootUrl s fuel = some st →
      (st.fetched.map Prod.fst).Nodup) ∧
    (∀ (ph : Str → Option (List Str)) (rootUrl : Str) (s : Settings)
       (fuel : Nat),
      (((V2.crawl_directory ph rootUrl s fuel).fetched).map Prod.fst).Nodup) ∧
    (∀ u : Str, pyEndsWith u "/".toList = false →
      normalizeDir u = normalizeDir (u ++ "/".toList)) := by
  refine ⟨?_, ?_, normalizeDir_trailing⟩
  · intro ph rootUrl s fuel st h
    simp only [V1.crawl_directory] at h
    split_ifs at h
    have h' := Option.some.inj h
    subst h'
    exact (v1_crawlLoop_inv ph s
      (pyToLower (PyUrl.urlparse (pyStrip rootUrl) [] true).netloc) fuel
      ⟨[], [], [(pyStrip rootUrl, 0)], []⟩ (Nat.zero_le _)
      (by intro p hp; simp at hp) (by simp) (by simp)).2.2.1
  · intro ph rootUrl s fuel
    simp only [V2.crawl_directory]
    exact (v2_crawlLoop_inv ph s _ fuel _ (by simp) (by simp)).1

/-- Witness for C5: the V1 conjunct applied to the `phNone` run, and the
normalization conjunct applied to a separator-free URL. -/
theorem claim5_witness :
    (stW.fetched.map Prod.fst).Nodup ∧
    (pyEndsWith (S "http://b.onion/d") (S "/") = false ∧
     normalizeDir (S "http://b.onion/d") =
       normalizeDir (S "http://b.onion/d" ++ S "/")) :=
  ⟨claim5_no_normalized_dir_fetched_twice.1 phNone rootW setW 3 stW
     (by decide),
   by decide,
   claim5_no_normalized_dir_fetched_twice.2.2 (S "http://b.onion/d")
     (by decide)⟩

/-- The `seen`-set loop of the link extractor yields a duplicate-free list
whose members avoid the initial `seen` set. -/
theorem dedupAux_nodup : ∀ (l seen : List Str),
    (dedupAux seen l).Nodup ∧ ∀ x ∈ dedupAux seen l, x ∉ seen := by
  intro l
  induction l with
  | nil =>
    intro seen
    exact ⟨List.nodup_nil, by intro x hx; simp [dedupAux] at hx⟩
  | cons a rest ih =>
    intro seen
    simp only [dedupAux]
    split_ifs with ha
    · exact ih seen
    · obtain ⟨h1, h2⟩ := ih (a :: seen)
      constructor
      · exact List.nodup_cons.mpr
          ⟨fun hmem => (h2 a hmem) (List.mem_cons_self a seen), h1⟩
      · intro x hx
        rcases List.mem_cons.mp hx with rfl | hx
        · exact ha
        · exact fun hxs => (h2 x hx) (List.mem_cons_of_mem _ hxs)

/-! ## Claim C6 -/

/-- Counterexample to C6: with two distinct directory pages both linking
`/shared.pdf`, the V1 crawl collects the same leaf URL twice, so the
global crawl result is not duplicate-free. -/
theorem claim6_counterexample :
    ((V1.crawl_directory phC6 rootW ⟨150, [S "pdf"], 200, 1⟩ 10).map
       (fun st => st.files.map (fun f => f.url)) =
      some [S "http://aaaaaaaaaaaaaaaa.onion/shared.pdf",
            S "http://aaaaaaaaaaaaaaaa.onion/shared.pdf"]) ∧
    ¬ (((V1.crawl_directory phC6 rootW ⟨150, [S "pdf"], 200, 1⟩ 10).map
          (fun st => st.files.map (fun f => f.url))).getD []).Nodup := by
  exact ⟨by decide, by decide⟩

/-- C6 amended: de-duplication by normalized absolute URL happens at the
per-page link-extraction step, so no two links yielded by one page
coincide; the visited-set de-duplicates directories only, and the same
file URL linked from two distinct directory pages is collected twice, so
the guarantee is per page, not global. -/
theorem claim6_amended_per_page_nodup :
    ∀ (hrefs : List Str) (baseUrl : Str),
      (V1.parse_links_from_listing hrefs baseUrl).Nodup := by
  intro hrefs baseUrl
  simp only [V1.parse_links_from_listing, dedupKeepOrder]
  exact (dedupAux_nodup _ []).1

/-! ## Claim C2 -/

/-- Counterexample to C2: in the spec scenario (root `docs/` linking
`a.pdf`, `sub/` and `../escape`, `max_depth = 1`), `urljoin` resolves
`../escape` to the host-root URL `/escape` before the parent-traversal
check, so `darkweb_file_downloader.py` does not drop it: the crawl result
contains the escape URL as a leaf. -/
theorem claim2_counterexample :
    ((V1.crawl_directory phC2 rootDocs setC2 10).map
       (fun st => st.files.map (fun f => f.url)) =
      some [S "http://aaaaaaaaaaaaaaaa.onion/docs/a.pdf",
            S "http://aaaaaaaaaaaaaaaa.onion/escape"]) ∧
    S "http://aaaaaaaaaaaaaaaa.onion/escape" ∈
      ((V1.crawl_directory phC2 rootDocs setC2 10).getD
        ⟨[], [], [], []⟩).files.map (fun f => f.url) := by
  exact ⟨by decide, by decide⟩

/-- C2 amended: a link whose parsed path still ends in a parent-traversal
token after stripping trailing separators is skipped by `V2.handleLink`;
but `../escape` is resolved by URL-joining to `/escape` before that check,
so it is not caught by it: in the scenario `darkweb-file-downloader.py`
enqueues `sub/` once, collects `a.pdf`, and drops the resolved
`/escape` only through its empty-extension filter, while
`darkweb_file_downloader.py` collects it as an extension-less leaf. -/
theorem claim2_amended :
    ((V2.crawl_directory phC2 rootDocs setC2 10).files.map
        (fun f => f.url) =
      [S "http://aaaaaaaaaaaaaaaa.onion/docs/a.pdf"] ∧
     (V2.crawl_directory phC2 rootDocs setC2 10).fetched =
      [(S "http://aaaaaaaaaaaaaaaa.onion/docs/", 0),
       (S "http://aaaaaaaaaaaaaaaa.onion/docs/sub/", 1)] ∧
     (V1.crawl_directory phC2 rootDocs setC2 10).map
        (fun st => st.files.map (fun f => (f.url, f.ext))) =
      some [(S "http://aaaaaaaaaaaaaaaa.onion/docs/a.pdf", S "pdf"),
            (S "http://aaaaaaaaaaaaaaaa.onion/escape", S "")]) ∧
    (∀ (host : Str) (s : Settings) (depth : Nat) (link : Str)
       (files : List FileItem) (newQ : List (Str × Nat)),
      pyEndsWith (rstripChar '/' (PyUrl.urlparse link [] true).path)
        "..".toList = true →
      V2.handleLink host s depth link files newQ = (files, newQ)) := by
  constructor
  · exact ⟨by decide, by decide, by decide⟩
  · intro host s depth link files newQ h
    simp only [V2.handleLink, h]
    split_ifs <;> simp

/-- Witness for C2 (amended universal part): a same-host link whose path
ends in `..` verbatim is dropped by `V2.handleLink`. -/
theorem claim2_witness :
    pyEndsWith (rstripChar '/'
      (PyUrl.urlparse (S "http://aaaaaaaaaaaaaaaa.onion/docs/..") [] true).path)
      "..".toList = true ∧
    V2.handleLink (S "aaaaaaaaaaaaaaaa.onion") setC2 0
      (S "http://aaaaaaaaaaaaaaaa.onion/docs/..") [] [] = ([], []) :=
  ⟨by decide,
   claim2_amended.2 (S "aaaaaaaaaaaaaaaa.onion") setC2 0
     (S "http://aaaaaaaaaaaaaaaa.onion/docs/..") [] [] (by decide)⟩

/-! ## Claim C3 -/

/-- Counterexample to C3: the crawl keeps a link whose scheme differs from
the root's (an `https` link from an `http` root), because only the netloc
is compared; the collected leaf's scheme differs from the root's scheme. -/
theorem claim3_counterexample :
    ((V1.crawl_directory phC3 rootW setC2 10).map
       (fun st => st.files.map (fun f => f.url)) =
      some [S "https://aaaaaaaaaaaaaaaa.onion/x.pdf"]) ∧
    (PyUrl.urlparse (S "https://aaaaaaaaaaaaaaaa.onion/x.pdf") [] true).scheme ≠
      (PyUrl.urlparse rootW [] true).scheme := by
  exact ⟨by decide, by decide⟩

/-- C3 amended: a discovered link is kept (collected as a leaf or
enqueued as a directory) only if its lowercased netloc (host and port)
equals the root's lowercased netloc; the scheme is not compared, so links
of a different scheme on the same host are kept. -/
theorem claim3_amended :
    ∀ (host : Str) (s : Settings) (depth : Nat) (link : Str)
      (files : List FileItem) (newQ : List (Str × Nat)),
      (∀ fi ∈ (V1.handleLink host s depth link files newQ).1,
        fi ∈ files ∨
          pyToLower (PyUrl.urlparse fi.url [] true).netloc = host) ∧
      (∀ e ∈ (V1.handleLink host s depth link files newQ).2,
        e ∈ newQ ∨
          pyToLower (PyUrl.urlparse e.1 [] true).netloc = host) := by
  intro host s depth link files newQ
  simp only [V1.handleLink]
  split_ifs with h1 h2 h3 h4 h5 <;>
    refine ⟨?_, ?_⟩ <;> intro x hx <;>
    first
      | exact Or.inl hx
      | (rcases List.mem_append.mp hx with hx | hx
         · exact Or.inl hx
         · rcases List.mem_singleton.mp hx with rfl
           exact Or.inr (of_not_not h1))

/-- Witness for C3 (amended): a concrete same-host leaf collected by
`V1.handleLink` indeed has the root's netloc. -/
theorem claim3_witness :
    (⟨S "http://h.onion/a.pdf", S "a.pdf", S "pdf", [S "a.pdf"]⟩ : FileItem) ∈
      (V1.handleLink (S "h.onion") setC2 0 (S "http://h.onion/a.pdf")
        [] []).1 ∧
    ((⟨S "http://h.onion/a.pdf", S "a.pdf", S "pdf", [S "a.pdf"]⟩ : FileItem)
        ∈ ([] : List FileItem) ∨
      pyToLower (PyUrl.urlparse
        (S "http://h.onion/a.pdf") [] true).netloc = S "h.onion") :=
  ⟨by decide,
   (claim3_amended (S "h.onion") setC2 0 (S "http://h.onion/a.pdf") [] []).1
     ⟨S "http://h.onion/a.pdf", S "a.pdf", S "pdf", [S "a.pdf"]⟩ (by decide)⟩

/-! ## Claim C7 -/

/-- Counterexample to C7: on the direct-file download path, a URL with no
discoverable extension is NOT rejected even under an empty allow-list —
`download_direct_file` proceeds past both gates (its extension check fires
only for a non-empty disallowed extension). -/
theorem claim7_counterexample :
    V2.norm_ext (V2.direct_fname
      (S "http://aaaaaaaaaaaaaaaa.onion/download") none) = [] ∧
    V2.direct_file_gate (S "http://aaaaaaaaaaaaaaaa.onion/download") none
      ⟨150, [], 200, 2⟩ = V2.DirectGate.proceeds := by
  exact ⟨by decide, by decide⟩

/-- C7 amended: on the directory-crawl path the allow-list check is exactly
as claimed — a leaf is allowed iff its extension is non-empty and its
lowercased form is in the allow-list, and an empty allow-list rejects every
leaf.  On the direct-file path, however, the gate rejects exactly the
leaves with a non-empty disallowed extension: a leaf with no discoverable
extension is never rejected there and proceeds to download. -/
theorem claim7_amended :
    (∀ (fi : FileItem) (s : Settings),
      V1.is_allowed fi s = true ↔
        (fi.ext ≠ [] ∧ pyToLower fi.ext ∈ s.allowExt)) ∧
    (∀ (fi : FileItem) (s : Settings), s.allowExt = [] →
      V1.is_allowed fi s = false) ∧
    (∀ (url : Str) (resp : Option V2.HeadResp) (s : Settings),
      V2.direct_file_gate url resp s = V2.DirectGate.rejectedNotAllowed ↔
        (V2.norm_ext (V2.direct_fname url resp) ≠ [] ∧
         V2.is_allowed_ext (V2.norm_ext (V2.direct_fname url resp)) s
           = false)) := by
  refine ⟨?_, ?_, ?_⟩
  · intro fi s
    simp only [V1.is_allowed]
    split_ifs with h
    · simp [h]
    · simp [h, decide_eq_true_iff]
  · intro fi s h
    simp only [V1.is_allowed]
    split_ifs with h2
    · rfl
    · simp [h]
  · intro url resp s
    simp only [V2.direct_file_gate]
    split_ifs with h
    · simp [h]
    · refine iff_of_false ?_ h
      intro hc
      revert hc
      split
      · split <;> simp
      · simp

/-- Witness for C7 (amended, empty allow-list conjunct): a `pdf` leaf is
rejected by `is_allowed` under an empty allow-list. -/
theorem claim7_witness :
    (⟨150, [], 200, 2⟩ : Settings).allowExt = [] ∧
    V1.is_allowed ⟨S "http://h.onion/f.pdf", S "f.pdf", S "pdf", []⟩
      ⟨150, [], 200, 2⟩ = false :=
  ⟨rfl,
   claim7_amended.2.1 ⟨S "http://h.onion/f.pdf", S "f.pdf", S "pdf", []⟩
     ⟨150, [], 200, 2⟩ rfl⟩

/-! ## Claim C8 -/

/-- Counterexample to C8: when the HEAD probe itself fails (the request
raises, modelled by `none`), `is_probably_html` reports `false`, so
`mode_download` routes the separator-free root to the DIRECT-FILE branch —
it does not assume a directory and does not proceed with the BFS crawl. -/
theorem claim8_counterexample :
    V2.is_probably_html none = false ∧
    V2.mode_download_route (S "http://aaaaaaaaaaaaaaaa.onion/file.bin") none =
      V2.RootRoute.directFile ∧
    V2.mode_download_route (S "http://aaaaaaaaaaaaaaaa.onion/file.bin") none ≠
      V2.RootRoute.directoryCrawl := by
  exact ⟨by decide, by decide, by decide⟩

/-- C8 amended: the engine short-circuits to the single direct-file result
(bypassing BFS, no HTML parsed) exactly when the root URL lacks a trailing
separator and the HEAD probe does not report an HTML content type; a
failed HEAD probe yields an empty content type and therefore also routes
to the direct-file branch (assume-file, not assume-directory). -/
theorem claim8_amended :
    (∀ (rootUrl : Str) (resp : Option V2.HeadResp),
      V2.mode_download_route rootUrl resp = V2.RootRoute.directFile ↔
        (pyEndsWith rootUrl "/".toList = false ∧
         V2.is_probably_html resp = false)) ∧
    V2.is_probably_html none = false := by
  constructor
  · intro rootUrl resp
    simp only [V2.mode_download_route]
    split_ifs with h
    · exact iff_of_true rfl
        ⟨(Bool.not_eq_true _) ▸ h.1, (Bool.not_eq_true _) ▸ h.2⟩
    · refine iff_of_false (by decide) ?_
      rintro ⟨ha, hb⟩
      exact h ⟨(Bool.not_eq_true _).symm ▸ ha, (Bool.not_eq_true _).symm ▸ hb⟩
  · decide

end DWFD
